import Mathlib

/-!
Verification of the sweet compiler core (src/core/lexer.py, src/core/parser.py).

Conventions of the shallow embedding:
* Python lists used as stacks (`append` / `pop()` / `[-1]`, i.e. operations at
  the right end) are represented head-first: `append` is `cons`, `pop()` takes
  the head, `[-1]` is the head.  The parser's `block_stack` is reversed on
  return so that returned node sequences are in document order, exactly as the
  Python list reads left-to-right.
* Python exceptions are represented as explicit error results.  Because the
  compilation context is mutated in place in the source, the error constructor
  of a compile result carries the context as it stands at the moment the
  exception is raised.
* Recursion is fuelled (`Nat` fuel, structural) so that every definition is a
  plain structural recursion the kernel can evaluate; real executions never
  exhaust the fuel used in the theorems.
* Machine work happens only on emitted text; all arithmetic here is the
  compiler's own bookkeeping (Python ints), modelled as `Int` / `Nat`.
-/

/-- Token payloads: Python stores an `int` for number literals, a `str` for
everything else, and `None` for EOF. -/
inductive TokValue where
  | vint (n : Int)
  | vstr (s : String)
  | vnone
deriving DecidableEq

namespace Lx

/-- TokenType of src/core/lexer.py (the lexer evolution that is under src/). -/
inductive TokenType where
  | NUMBER
  | PLUS
  | MINUS
  | MULTIPLY
  | DIVIDE
  | COMPARE
  | STRING
  | KEYWORD
  | IDENTIFIER
  | EOF
deriving DecidableEq

/-- Token of src/core/lexer.py: `{type, value, line, column}`. -/
structure Token where
  type : TokenType
  value : TokValue
  line : Nat
  column : Nat
deriving DecidableEq

/-- LexerError carries a message and the 1-based source position. -/
structure LexErr where
  msg : String
  line : Nat
  column : Nat
deriving DecidableEq

/-- `token_map` of src/core/lexer.py lines 15-21. -/
def token_map (c : Char) : Option TokenType :=
  if c = '+' then some .PLUS
  else if c = '-' then some .MINUS
  else if c = '*' then some .MULTIPLY
  else if c = '/' then some .DIVIDE
  else if c = '?' then some .COMPARE
  else none

/-- `keywords` of src/core/lexer.py line 23. -/
def keywords : List String := ["if", "else", "end", "dup", "print", "input", "extern"]

/-- Lexer cursor state: the characters not yet consumed plus the 1-based
line/column of the next character (`src`/`pos`/`line`/`column` of the class,
with `rest = src[pos:]`). -/
structure St where
  rest : List Char
  line : Nat
  column : Nat
deriving DecidableEq

def initSt (src : String) : St := ⟨src.data, 1, 1⟩

/-- `skip_whitespace`: consume while the current character is whitespace,
updating line on a newline exactly as `advance` does. -/
def skipWsAux : List Char → Nat → Nat → List Char × Nat × Nat
  | [], l, c => ([], l, c)
  | ch :: cs, l, c =>
    if ch.isWhitespace then
      if ch = '\n' then skipWsAux cs (l + 1) 1 else skipWsAux cs l (c + 1)
    else (ch :: cs, l, c)

/-- Single-line comment body: consume up to (not including) the next newline,
as the `while ... != "\n"` loop of `get_next_token`. -/
def skipToNl : List Char → Nat → Nat → List Char × Nat × Nat
  | [], l, c => ([], l, c)
  | ch :: cs, l, c =>
    if ch = '\n' then (ch :: cs, l, c) else skipToNl cs l (c + 1)

/-- Block comment body: consume until `*/` is consumed, or silently to the end
of input (matching the source, which accepts an unterminated block comment). -/
def skipBlock : List Char → Nat → Nat → List Char × Nat × Nat
  | [], l, c => ([], l, c)
  | ch :: cs, l, c =>
    if ch = '*' ∧ cs.head? = some '/' then (cs.tail, l, c + 2)
    else if ch = '\n' then skipBlock cs (l + 1) 1
    else skipBlock cs l (c + 1)

/-- `number`: accumulate a maximal digit run; the value is `int(result)`. -/
def takeNum (acc : Nat) : List Char → Nat → Nat × List Char × Nat
  | [], c => (acc, [], c)
  | ch :: cs, c =>
    if ch.isDigit then takeNum (acc * 10 + (ch.toNat - 48)) cs (c + 1)
    else (acc, ch :: cs, c)

/-- String literal body: consume until the closing quote; `none` when the end
of input is reached first (the unterminated case). -/
def takeStr (acc : List Char) : List Char → Nat → Nat → Option (List Char) × List Char × Nat × Nat
  | [], l, c => (none, [], l, c)
  | ch :: cs, l, c =>
    if ch = '"' then (some acc.reverse, cs, l, c + 1)
    else if ch = '\n' then takeStr (ch :: acc) cs (l + 1) 1
    else takeStr (ch :: acc) cs l (c + 1)

/-- Identifier/keyword body: accumulate while alphanumeric or `_`/`-`. -/
def takeWord (acc : List Char) : List Char → Nat → List Char × List Char × Nat
  | [], c => (acc.reverse, [], c)
  | ch :: cs, c =>
    if ch.isAlphanum ∨ ch = '_' ∨ ch = '-' then takeWord (ch :: acc) cs (c + 1)
    else (acc.reverse, ch :: cs, c)

/-- `Lexer.get_next_token` (src/core/lexer.py lines 71-132).  The fuel bounds
the number of `continue` iterations of the outer `while`; each iteration
consumes at least one character, so `rest.length + 1` fuel always suffices. -/
def getNextToken : Nat → St → Except LexErr (Token × St)
  | 0, s => .error ⟨"fuel exhausted", s.line, s.column⟩
  | f + 1, s =>
    match s.rest with
    | [] => .ok (⟨.EOF, .vnone, s.line, s.column⟩, s)
    | ch :: cs =>
      if ch.isWhitespace then
        let (r, l, c) := skipWsAux (ch :: cs) s.line s.column
        getNextToken f ⟨r, l, c⟩
      else if ch = '/' ∧ cs.head? = some '/' then
        let (r, l, c) := skipToNl cs.tail s.line (s.column + 2)
        getNextToken f ⟨r, l, c⟩
      else if ch = '/' ∧ cs.head? = some '*' then
        let (r, l, c) := skipBlock cs.tail s.line (s.column + 2)
        getNextToken f ⟨r, l, c⟩
      else if ch.isDigit then
        let (v, r, c) := takeNum 0 (ch :: cs) s.column
        .ok (⟨.NUMBER, .vint (Int.ofNat v), s.line, s.column⟩, ⟨r, s.line, c⟩)
      else
        match token_map ch with
        | some tt => .ok (⟨tt, .vstr (String.singleton ch), s.line, s.column⟩, ⟨cs, s.line, s.column + 1⟩)
        | none =>
          if ch = '"' then
            match takeStr [] cs s.line (s.column + 1) with
            | (none, _, _, _) => .error ⟨"Unterminated string literal", s.line, s.column⟩
            | (some content, r, l, c) =>
              .ok (⟨.STRING, .vstr (String.mk content), s.line, s.column⟩, ⟨r, l, c⟩)
          else if ch.isAlpha then
            let (w, r, c) := takeWord [] (ch :: cs) s.column
            let word := String.mk w
            if keywords.contains word then
              .ok (⟨.KEYWORD, .vstr word, s.line, s.column⟩, ⟨r, s.line, c⟩)
            else
              .ok (⟨.IDENTIFIER, .vstr word, s.line, s.column⟩, ⟨r, s.line, c⟩)
          else .error ⟨"Unknown character: " ++ String.singleton ch, s.line, s.column⟩

/-- The collecting loop of `Lexer.lex` (src/core/lexer.py lines 134-144).
On a `LexerError` the source prints the error and falls through, returning
`None`: that is the `none` branch here. -/
def lexLoop : Nat → St → List Token → Option (List Token)
  | 0, _, _ => none
  | f + 1, s, acc =>
    match getNextToken (s.rest.length + 1) s with
    | .error _ => none
    | .ok (t, s') =>
      if t.type = .EOF then some (acc ++ [t]) else lexLoop f s' (acc ++ [t])

/-- `Lexer.lex`: tokenize the whole source; `none` models the `None` the
source returns after catching (and printing) a `LexerError`. -/
def lex (src : String) : Option (List Token) :=
  lexLoop (src.length + 2) (initSt src) []

end Lx

/-- `BuiltinTypes` (src/core/parser.py lines 9-12): the symbolic value types. -/
inductive BuiltinTypes where
  | UInt
  | Char
  | InlineString
deriving DecidableEq

/-- Dynamic attribute lookup on the `BuiltinTypes` enumeration: Python resolves
`BuiltinTypes.<name>` at run time and raises `AttributeError` for a name that
is not a member.  `Input.compile` writes `BuiltinTypes.String`, which is not a
member, so its lookup yields `none`. -/
def builtinTypesAttr (s : String) : Option BuiltinTypes :=
  if s = "UInt" then some .UInt
  else if s = "Char" then some .Char
  else if s = "InlineString" then some .InlineString
  else none

/-- Python `str()` of a `BuiltinTypes` member, used in error messages. -/
def btRepr : BuiltinTypes → String
  | .UInt => "BuiltinTypes.UInt"
  | .Char => "BuiltinTypes.Char"
  | .InlineString => "BuiltinTypes.InlineString"

/-- Modelled from the spec: the token kinds `Parser.parse_block` consumes
(INTLIT, STAR, SLASH, BANG, LBRACK, RBRACK, ... as referenced throughout
src/core/parser.py).  The lexer evolution producing these kinds is not under
src/ (src/core/lexer.py is an earlier evolution of the data model), so the
parser is embedded over a stream of these tokens, following the spec's token
data model. -/
inductive TokenType where
  | INTLIT
  | PLUS
  | MINUS
  | STAR
  | SLASH
  | COMPARE
  | STRING
  | BANG
  | KEYWORD
  | IDENTIFIER
  | LBRACK
  | RBRACK
  | EOF
deriving DecidableEq

/-- Python `str()` of a parser-side token type, as it appears in `eat`'s
"Expected ..., got ..." messages. -/
def ttRepr : TokenType → String
  | .INTLIT => "TokenType.INTLIT"
  | .PLUS => "TokenType.PLUS"
  | .MINUS => "TokenType.MINUS"
  | .STAR => "TokenType.STAR"
  | .SLASH => "TokenType.SLASH"
  | .COMPARE => "TokenType.COMPARE"
  | .STRING => "TokenType.STRING"
  | .BANG => "TokenType.BANG"
  | .KEYWORD => "TokenType.KEYWORD"
  | .IDENTIFIER => "TokenType.IDENTIFIER"
  | .LBRACK => "TokenType.LBRACK"
  | .RBRACK => "TokenType.RBRACK"
  | .EOF => "TokenType.EOF"

/-- Token consumed by the parser: `{type, value, line, column}`. -/
structure Token where
  type : TokenType
  value : TokValue
  line : Nat
  column : Nat
deriving DecidableEq

/-- Flatten a token payload to the string Python would use where a `str` is
expected (identifier names, keyword words, operator characters). -/
def TokValue.asStr : TokValue → String
  | .vstr s => s
  | .vint n => toString n
  | .vnone => "None"

/-- The integer payload of a token (INTLIT values are always `vint`). -/
def TokValue.asInt : TokValue → Int
  | .vint n => n
  | .vstr _ => 0
  | .vnone => 0

/-- The AST node variants of src/core/parser.py (one constructor per class).
`externDecl` embeds the class `Extern`. -/
inductive Node where
  | number (value : Int)
  | string (value : String)
  | binaryOp (op : String) (left right : Node)
  | compare (left right : Node)
  | dup
  | print
  | input
  | bang
  | bangWrapper (node : Node)
  | ifElse (condition : Node) (if_body : List Node) (else_body : Option (List Node))
  | externDecl (ext : String)
  | call (func : String) (arg_count : Int)
  | varDef (name : String) (size : Int) (t : BuiltinTypes)
  | arrayDef (name : String) (count : Int) (unit_size : Int) (base_type : BuiltinTypes)
  | loadVar (name : String)
  | loadVarIdx (name : String) (idx : Int)
  | storeVar (name : String)
  | loop (condition : Node) (body : List Node)
  | blockExpr (expressions : List Node)

/-- A `ctx.vars` entry: `VarDef.compile` stores the 3-list
`[label, size, type]` (count `none`), `ArrayDef.compile` stores the 4-list
`[label, size, base_type, count]` (count `some`).  `StoreVar.compile` unpacks
exactly four values, which fails on a 3-entry (a Python `ValueError`). -/
structure VarEntry where
  label : String
  size : Int
  type : BuiltinTypes
  count : Option Int
deriving DecidableEq

/-- Association-list lookup (Python `dict` access keyed by name). -/
def lookupA {α : Type} (k : String) : List (String × α) → Option α
  | [] => none
  | (k', v) :: rest => if k' = k then some v else lookupA k rest

/-- Association-list update (Python `dict` assignment: replace, else append). -/
def setA {α : Type} (k : String) (v : α) : List (String × α) → List (String × α)
  | [] => [(k, v)]
  | (k', v') :: rest => if k' = k then (k, v) :: rest else (k', v') :: setA k v rest

/-- The compilation context threaded through parsing and code generation:
`stack_depth`/`stack_types` mirror the generated program's runtime stack,
`label_counter` drives `new_label`, `strings` is the interning pool,
`vars` the variable table, and `known_externs`/`known_vars`/`type_map` the
parser-side registries.  The class itself is not under src/; its fields and
their uses are exactly those src/core/parser.py reads and writes. -/
structure Ctx where
  stack_depth : Int
  stack_types : List BuiltinTypes
  label_counter : Nat
  strings : List (String × String)
  vars : List (String × VarEntry)
  known_externs : List (String × Int)
  known_vars : List String
  type_map : List (String × BuiltinTypes)
deriving DecidableEq

/-- Modelled from the spec: label allocation is a pure counter `L0, L1, ...`,
globally unique per compilation (spec section 4.3). -/
def labelName (n : Nat) : String := "L" ++ toString n

/-- Modelled from the spec: `ctx.new_label()` returns the next counter label
and bumps the counter. -/
def Ctx.new_label (ctx : Ctx) : String × Ctx :=
  (labelName ctx.label_counter, { ctx with label_counter := ctx.label_counter + 1 })

/-- Modelled from the spec: `ctx.add_string(lit)` interns a literal into the
string pool, reusing the existing label when the exact literal was seen
before (spec section 4.3, string pool keyed by literal content). -/
def Ctx.add_string (ctx : Ctx) (s : String) : String × Ctx :=
  match lookupA s ctx.strings with
  | some l => (l, ctx)
  | none =>
    let l := "S" ++ toString ctx.strings.length
    (l, { ctx with strings := ctx.strings ++ [(s, l)] })

/-- Modelled from the spec: the fixed type-name → symbolic-type table consulted
by the parser's `var` rule (`ctx.type_map`). -/
def defaultTypeMap : List (String × BuiltinTypes) :=
  [("int", .UInt), ("char", .Char), ("str", .InlineString)]

/-- Modelled from the spec: the fixed type → size table (`ctx.type_sizes`). -/
def type_sizes : BuiltinTypes → Int
  | .UInt => 8
  | .Char => 1
  | .InlineString => 8

/-- A fresh compilation context. -/
def emptyCtx : Ctx := ⟨0, [], 0, [], [], [], [], defaultTypeMap⟩

/-- Result of a `compile(ctx)` call: the emitted assembly lines plus the
context after the call, or the message of the raised exception plus the
context as mutated up to the raise. -/
inductive CRes where
  | ok (code : List String) (ctx : Ctx)
  | err (msg : String) (ctx : Ctx)
deriving DecidableEq

/-- The fixed argument-register order of `Call.compile`. -/
def arg_regs : List String := ["rdi", "rsi", "rdx", "rcx", "r8", "r9"]

/-- The `for i in reversed(range(arg_count))` marshalling loop of
`Call.compile`: pop one symbolic type and emit one `pop` per argument, from
register index `arg_count - 1` down to `0`.  Out-of-range register indices and
pops from an empty list are Python `IndexError`s. -/
def popArgs : Nat → Ctx → Except (String × Ctx) (List String × Ctx)
  | 0, ctx => .ok ([], ctx)
  | n + 1, ctx =>
    match arg_regs.get? n with
    | none => .error ("IndexError: list index out of range", ctx)
    | some reg =>
      match ctx.stack_types with
      | [] => .error ("IndexError: pop from empty list", ctx)
      | _ :: rest =>
        match popArgs n { ctx with stack_types := rest, stack_depth := ctx.stack_depth - 1 } with
        | .error e => .error e
        | .ok (lines, ctx') => .ok (("    pop " ++ reg) :: lines, ctx')

/-- Opcode lines for the four binary operators of `BinaryOp.compile`; `none`
for any other operator string ("Unknown binary operator"). -/
def binOpcode (op : String) : Option (List String) :=
  if op = "+" then some ["    add rax, rbx"]
  else if op = "-" then some ["    sub rax, rbx"]
  else if op = "*" then some ["    imul rax, rbx"]
  else if op = "/" then some ["    cqo", "    idiv rbx"]
  else none

/-- Compile a list of nodes in order, concatenating their code and threading
the context; the first exception aborts (used for if/else bodies, loop bodies
and `BlockExpr.compile`). -/
def goList (rec : Node → Ctx → CRes) : List Node → Ctx → CRes
  | [], ctx => .ok [] ctx
  | n :: ns, ctx =>
    match rec n ctx with
    | .err m c => .err m c
    | .ok code ctx1 =>
      match goList rec ns ctx1 with
      | .err m c => .err m c
      | .ok code2 ctx2 => .ok (code ++ code2) ctx2

/-- The `compile(ctx)` contract of every AST node (src/core/parser.py), one
match arm per class, written in the source's statement order.  Children are
compiled with one unit less fuel; `compileNodeF 0` models an exhausted
recursion budget and never occurs in a real run with adequate fuel. -/
def compileNodeF : Nat → Node → Ctx → CRes
  | 0, _, ctx => .err "RecursionError: maximum recursion depth exceeded" ctx
  | f + 1, node, ctx =>
    match node with
    | .number v =>
      .ok ["    push " ++ toString v]
        { ctx with stack_depth := ctx.stack_depth + 1, stack_types := .UInt :: ctx.stack_types }
    | .string s =>
      let (label, ctx1) := ctx.add_string s
      .ok ["    lea rax, [" ++ label ++ "]", "    push rax"]
        { ctx1 with stack_depth := ctx1.stack_depth + 1, stack_types := .InlineString :: ctx1.stack_types }
    | .binaryOp op l r =>
      match compileNodeF f l ctx with
      | .err m c => .err m c
      | .ok cl ctx1 =>
        match compileNodeF f r ctx1 with
        | .err m c => .err m c
        | .ok cr ctx2 =>
          match ctx2.stack_types with
          | right_type :: left_type :: rest =>
            if right_type ≠ .UInt ∨ left_type ≠ .UInt then
              .err "Binary operations only supported on numbers" { ctx2 with stack_types := rest }
            else
              match binOpcode op with
              | none => .err ("Unknown binary operator " ++ op) { ctx2 with stack_types := rest }
              | some oplines =>
                .ok (cl ++ cr ++ ["    pop rbx", "    pop rax"] ++ oplines ++ ["    push rax"])
                  { ctx2 with stack_types := .UInt :: rest, stack_depth := ctx2.stack_depth - 1 }
          | _ => .err "Stack underflow in BinaryOp" ctx2
    | .dup =>
      match ctx.stack_types with
      | [] => .err "Stack underflow in Dup" ctx
      | top_type :: _ =>
        .ok ["    pop rax", "    push rax", "    push rax"]
          { ctx with stack_depth := ctx.stack_depth + 1, stack_types := top_type :: ctx.stack_types }
    | .print =>
      if ctx.stack_depth = 0 then .err "Stack underflow in Print" ctx
      else
        match ctx.stack_types with
        | [] => .err "IndexError: list index out of range" ctx
        | typ :: rest =>
          if typ = .InlineString ∨ typ = .Char then
            .ok ["    pop rdi", "    push rbp", "    call print_str", "    pop rbp"]
              { ctx with stack_types := rest, stack_depth := ctx.stack_depth - 1 }
          else
            .ok ["    pop rdi", "    push rbp", "    call print_int", "    pop rbp"]
              { ctx with stack_types := rest, stack_depth := ctx.stack_depth - 1 }
    | .input =>
      match builtinTypesAttr "String" with
      | none => .err "AttributeError: String" ctx
      | some t =>
        .ok ["    push rbp", "    call stdin_getline", "    pop rbp", "    push rax"]
          { ctx with stack_types := t :: ctx.stack_types, stack_depth := ctx.stack_depth + 1 }
    | .compare l r =>
      match compileNodeF f l ctx with
      | .err m c => .err m c
      | .ok cl ctx1 =>
        match compileNodeF f r ctx1 with
        | .err m c => .err m c
        | .ok cr ctx2 =>
          match ctx2.stack_types with
          | rt :: lt :: rest =>
            if (lt = .InlineString ∨ lt = .Char) ∧ (rt = .InlineString ∨ rt = .Char) then
              .ok (cl ++ cr ++ ["    pop rsi", "    pop rdi", "    push rbp", "    call compare_str", "    pop rbp", "    push rax"])
                { ctx2 with stack_types := .UInt :: rest, stack_depth := ctx2.stack_depth - 1 }
            else if lt = .UInt ∧ rt = .UInt then
              .ok (cl ++ cr ++ ["    pop rsi", "    pop rdi", "    push rbp", "    call compare_int", "    pop rbp", "    push rax"])
                { ctx2 with stack_types := .UInt :: rest, stack_depth := ctx2.stack_depth - 1 }
            else
              .err ("Can\x27t compare " ++ btRepr lt ++ " with " ++ btRepr rt) { ctx2 with stack_types := rest }
          | _ => .err "Stack underflow in Compare" ctx2
    | .ifElse c ib eb =>
      match compileNodeF f c ctx with
      | .err m cx => .err m cx
      | .ok cc ctx1 =>
        if ctx1.stack_depth = 0 then .err "Stack underflow in If condition" ctx1
        else
          let ctx2 := { ctx1 with stack_depth := ctx1.stack_depth - 1 }
          let (else_label, ctx3) := ctx2.new_label
          let (end_label, ctx4) := ctx3.new_label
          match goList (compileNodeF f) ib ctx4 with
          | .err m cx => .err m cx
          | .ok ibc ctx5 =>
            match (match eb with
                   | some ebl => goList (compileNodeF f) ebl ctx5
                   | none => .ok [] ctx5) with
            | .err m cx => .err m cx
            | .ok ebc ctx6 =>
              .ok (cc ++ ["    pop rax"] ++ ["    cmp rax, 0", "    je " ++ else_label]
                   ++ ibc ++ ["    jmp " ++ end_label] ++ [else_label ++ ":"]
                   ++ ebc ++ [end_label ++ ":"]) ctx6
    | .externDecl e => .ok ["extern " ++ e] ctx
    | .call func arg_count =>
      if ctx.stack_depth < arg_count then
        .err ("Stack underflow in Call to " ++ func) ctx
      else
        match popArgs arg_count.toNat ctx with
        | .error (m, cx) => .err m cx
        | .ok (lines, ctx1) =>
          .ok (lines ++ ["    push rbp", "    call " ++ func, "    pop rbp", "    push rax"])
            { ctx1 with stack_types := .UInt :: ctx1.stack_types, stack_depth := ctx1.stack_depth + 1 }
    | .varDef name size t =>
      let (label, ctx1) := ctx.new_label
      let ctx2 := { ctx1 with vars := setA name ⟨label, size, t, none⟩ ctx1.vars }
      .ok ["    mov rdi, " ++ toString size, "    push rbp", "    call new", "    pop rbp",
           "    mov [" ++ label ++ "], rax"] ctx2
    | .arrayDef name count unit_size base_type =>
      let size := count * unit_size
      let (label, ctx1) := ctx.new_label
      let ctx2 := { ctx1 with vars := setA name ⟨label, size, base_type, some count⟩ ctx1.vars }
      .ok ["    mov rdi, " ++ toString size, "    push rbp", "    call new", "    pop rbp",
           "    mov [" ++ label ++ "], rax"] ctx2
    | .loadVar name =>
      match lookupA name ctx.vars with
      | none => .err ("Var \x27" ++ name ++ "\x27 not defined") ctx
      | some e =>
        .ok ["    mov rax, [" ++ e.label ++ "]", "    push rax"]
          { ctx with stack_depth := ctx.stack_depth + 1, stack_types := e.type :: ctx.stack_types }
    | .loadVarIdx name idx =>
      match lookupA name ctx.vars with
      | none => .err ("Var \x27" ++ name ++ "\x27 not defined") ctx
      | some e =>
        .ok ["    xor rax, rax", "    mov al, [" ++ e.label ++ " + " ++ toString idx ++ "]", "    push rax"]
          { ctx with stack_depth := ctx.stack_depth + 1, stack_types := e.type :: ctx.stack_types }
    | .storeVar name =>
      if ctx.stack_depth < 1 then .err "StoreVar underflow" ctx
      else
        match lookupA name ctx.vars with
        | none => .err ("Var \x27" ++ name ++ "\x27 not defined") ctx
        | some e =>
          match e.count with
          | none => .err "ValueError: not enough values to unpack (expected 4, got 3)" ctx
          | some count =>
            let ctx1 := { ctx with stack_depth := ctx.stack_depth - 1 }
            match ctx1.stack_types with
            | [] => .err "IndexError: pop from empty list" ctx1
            | val_type :: rest =>
              let ctx2 := { ctx1 with stack_types := rest }
              if val_type = .InlineString ∧ e.type = .Char then
                .ok ["    pop rax", "    mov rsi, rax", "    mov rdi, [" ++ e.label ++ "]",
                     "    mov rdx, " ++ toString count, "    call memcpy"] ctx2
              else
                .ok ["    pop rax", "    mov [" ++ e.label ++ "], rax"] ctx2
    | .bang =>
      match ctx.stack_types with
      | [] => .err "Stack underflow in Bang" ctx
      | top_type :: rest =>
        if ctx.stack_depth = 0 then .err "Stack underflow in Bang" ctx
        else
          if top_type = .UInt then
            .ok ["    pop rax", "    test rax, rax", "    sete al", "    movzx rax, al", "    push rax"]
              { ctx with stack_types := .UInt :: rest }
          else
            .err "Bang operator only supported for numbers"
              { ctx with stack_types := rest, stack_depth := ctx.stack_depth - 1 }
    | .bangWrapper n =>
      match compileNodeF f n ctx with
      | .err m cx => .err m cx
      | .ok c1 ctx1 =>
        match compileNodeF f .bang ctx1 with
        | .err m cx => .err m cx
        | .ok c2 ctx2 => .ok (c1 ++ c2) ctx2
    | .loop c body =>
      let (loop_label, ctx1) := ctx.new_label
      let (end_label, ctx2) := ctx1.new_label
      match compileNodeF f c ctx2 with
      | .err m cx => .err m cx
      | .ok cc ctx3 =>
        if ctx3.stack_depth = 0 then .err "Stack underflow in Loop condition" ctx3
        else
          let ctx4 := { ctx3 with stack_depth := ctx3.stack_depth - 1 }
          match ctx4.stack_types with
          | [] => .err "IndexError: pop from empty list" ctx4
          | _ :: rest =>
            let ctx5 := { ctx4 with stack_types := rest }
            match goList (compileNodeF f) body ctx5 with
            | .err m cx => .err m cx
            | .ok bodyc ctx6 =>
              .ok ([loop_label ++ ":"] ++ cc ++ ["    pop rax"]
                   ++ ["    cmp rax, 0", "    je " ++ end_label]
                   ++ bodyc ++ ["    jmp " ++ loop_label] ++ [end_label ++ ":"]) ctx6
    | .blockExpr es => goList (compileNodeF f) es ctx

/-- Compile a whole program (sequence of statement nodes) at the given fuel. -/
def compileProgF (f : Nat) (prog : List Node) (ctx : Ctx) : CRes :=
  goList (compileNodeF f) prog ctx


/-- A `ParserError` (message, 1-based position), or any other Python exception
escaping `parse_block` (`KeyError`, recursion limit, ...). -/
inductive PError where
  | parserError (msg : String) (line : Nat) (column : Nat)
  | pyError (msg : String)
deriving DecidableEq

/-- Result of `parse_block`: the block's node sequence in document order, the
unconsumed tokens (the stop token is left for the caller), and the context
with its registries as updated, or the raised error. -/
inductive PRes where
  | ok (nodes : List Node) (toks : List Token) (ctx : Ctx)
  | err (e : PError)

/-- The current token: the head of the stream; an exhausted stream stands for
the lexer's repeated EOF. -/
def curTok (toks : List Token) : Token := toks.headD ⟨.EOF, .vnone, 0, 0⟩

/-- Python `repr` of the known-extern names list, as interpolated into the
"Unknown identifier" message. -/
def externNamesRepr (externs : List (String × Int)) : String :=
  "[" ++ String.intercalate ", " (externs.map (fun p => "\x27" ++ p.1 ++ "\x27")) ++ "]"

/-- Python `str()` of a token (`Token.__str__`), used in the
"Unexpected token" message. -/
def tokenRepr (t : Token) : String :=
  "Token(" ++ ttRepr t.type ++ ", " ++ t.value.asStr ++ ", line=" ++ toString t.line
    ++ ", col=" ++ toString t.column ++ ")"

/-- `Parser.eat`: advance when the current token has the expected type, else
raise `Expected ..., got ...` at the current token's position. -/
def eatTok (t : TokenType) (toks : List Token) : Except PError (List Token) :=
  let c := curTok toks
  if c.type = t then .ok toks.tail
  else .error (.parserError ("Expected " ++ ttRepr t ++ ", got " ++ ttRepr c.type) c.line c.column)

/-- The `var` rule's tail (array suffix, registration, optional inline string
initializer), factored from `parse_block` for readability; `toks` starts at
the token after the TYPE identifier.  Returns the updated token stream, node
stack and context, or the raised error. -/
def parseVarTail (name : String) (unit_size : Int) (base_type : BuiltinTypes)
    (tokLine tokCol : Nat) (toks : List Token) (rstack : List Node) (ctx : Ctx) :
    Except PError (List Token × List Node × Ctx) :=
  let mkNode : Int → Node := fun cnt => Node.arrayDef name cnt unit_size base_type
  let afterNode : Int → List Token → Except PError (List Token × List Node × Ctx) :=
    fun cnt toks1 =>
      let ctx1 := { ctx with known_vars := ctx.known_vars ++ [name] }
      let rstack1 := mkNode cnt :: rstack
      -- inline init for arrays only (`isinstance(node, ArrayDef)` always holds)
      if (curTok toks1).type = .STRING then
        let lit := (curTok toks1).value.asStr
        if (lit.length : Int) > cnt then
          .error (.parserError ("Literal too long for " ++ name ++ "[" ++ toString cnt ++ "]") tokLine tokCol)
        else
          .ok (toks1.tail, Node.string lit :: rstack1, ctx1)
      else .ok (toks1, rstack1, ctx1)
  if (curTok toks).type = .LBRACK then
    let toks1 := toks.tail
    let cnt := (curTok toks1).value.asInt
    match eatTok .INTLIT toks1 with
    | .error e => .error e
    | .ok toks2 =>
      match eatTok .RBRACK toks2 with
      | .error e => .error e
      | .ok toks3 => afterNode cnt toks3
  else afterNode 1 toks

/-- Intermediate result of the optional else-body parse inside the `if` rule. -/
inductive PResOptBody where
  | ok (else_body : Option (List Node)) (toks : List Token) (ctx : Ctx)
  | err (e : PError)

/-- The body of `Parser.parse_block` (src/core/parser.py lines 478-639).
`rstack` is the operand stack of AST nodes (`block_stack`), head-first; each
loop iteration is one fuel step and nested bodies recurse with one unit less
fuel; `stops` is `until_keywords`.  Each arm mirrors one `if`/`elif` of the
source, in source order; the stop token is left unconsumed. -/
def parseBlockGo : Nat → List String → List Token → List Node → Ctx → PRes
  | 0, _, _, _, _ => .err (.pyError "RecursionError: maximum recursion depth exceeded")
  | f + 1, stops, toks, rstack, ctx =>
    let tok := curTok toks
    if tok.type = .EOF then .ok rstack.reverse toks ctx
    else if tok.type = .KEYWORD ∧ stops.contains tok.value.asStr then .ok rstack.reverse toks ctx
    else if tok.type = .INTLIT then
      let toks1 := toks.tail
      let node := Node.number tok.value.asInt
      if (curTok toks1).type = .BANG then
        parseBlockGo f stops toks1.tail (Node.bangWrapper node :: rstack) ctx
      else
        parseBlockGo f stops toks1 (node :: rstack) ctx
    else if tok.type = .PLUS ∨ tok.type = .MINUS ∨ tok.type = .STAR ∨ tok.type = .SLASH then
      match rstack with
      | right :: left :: rest =>
        parseBlockGo f stops toks.tail (Node.binaryOp tok.value.asStr left right :: rest) ctx
      | _ => .err (.parserError "Not enough operands for binary operator" tok.line tok.column)
    else if tok.type = .STRING then
      parseBlockGo f stops toks.tail (Node.string tok.value.asStr :: rstack) ctx
    else if tok.type = .COMPARE then
      match rstack with
      | right :: left :: rest =>
        parseBlockGo f stops toks.tail (Node.compare left right :: rest) ctx
      | _ => .err (.parserError "Not enough operands for compare operator" tok.line tok.column)
    else if tok.type = .BANG then
      parseBlockGo f stops toks.tail (Node.bang :: rstack) ctx
    else if tok.type = .KEYWORD then
      let kw := tok.value.asStr
      if kw = "dup" then parseBlockGo f stops toks.tail (Node.dup :: rstack) ctx
      else if kw = "print" then parseBlockGo f stops toks.tail (Node.print :: rstack) ctx
      else if kw = "input" then parseBlockGo f stops toks.tail (Node.input :: rstack) ctx
      else if kw = "if" then
        match rstack with
        | [] => .err (.parserError "Not enough operands for if condition" tok.line tok.column)
        | condition :: rest =>
          match parseBlockGo f ["else", "end"] toks.tail [] ctx with
          | .err e => .err e
          | .ok if_body toks1 ctx1 =>
            match (if (curTok toks1).type = .KEYWORD ∧ (curTok toks1).value.asStr = "else" then
                     match parseBlockGo f ["end"] toks1.tail [] ctx1 with
                     | .err e => .err e
                     | .ok else_body toks2 ctx2 => .ok (some else_body) toks2 ctx2
                   else .ok none toks1 ctx1 : PResOptBody) with
            | .err e => .err e
            | .ok else_body toks2 ctx2 =>
              if (curTok toks2).type = .KEYWORD ∧ (curTok toks2).value.asStr = "end" then
                parseBlockGo f stops toks2.tail (Node.ifElse condition if_body else_body :: rest) ctx2
              else .err (.parserError "Expected \"end\" after if block" tok.line tok.column)
      else if kw = "loop" then
        match parseBlockGo f ["do"] toks.tail [] ctx with
        | .err e => .err e
        | .ok condition_expr toks1 ctx1 =>
          if condition_expr.isEmpty then
            .err (.parserError "No condition provided for loop" tok.line tok.column)
          else
            match eatTok .KEYWORD toks1 with
            | .error e => .err e
            | .ok toks2 =>
              match parseBlockGo f ["end"] toks2 [] ctx1 with
              | .err e => .err e
              | .ok loop_body toks3 ctx2 =>
                if (curTok toks3).type = .KEYWORD ∧ (curTok toks3).value.asStr = "end" then
                  parseBlockGo f stops toks3.tail
                    (Node.loop (Node.blockExpr condition_expr) loop_body :: rstack) ctx2
                else .err (.parserError "Expected \"end\" after loop block" tok.line tok.column)
      else if kw = "extern" then
        let toks1 := toks.tail
        if (curTok toks1).type ≠ .IDENTIFIER then
          .err (.parserError "Expected identifier after extern" tok.line tok.column)
        else
          let name := (curTok toks1).value.asStr
          let toks2 := toks1.tail
          if (curTok toks2).type ≠ .INTLIT then
            .err (.parserError "Expected argument count after extern name" tok.line tok.column)
          else
            let args := (curTok toks2).value.asInt
            parseBlockGo f stops toks2.tail (Node.externDecl name :: rstack)
              { ctx with known_externs := setA name args ctx.known_externs }
      else if kw = "var" then
        let toks1 := toks.tail
        let name := (curTok toks1).value.asStr
        match eatTok .IDENTIFIER toks1 with
        | .error e => .err e
        | .ok toks2 =>
          match eatTok .KEYWORD toks2 with
          | .error e => .err e
          | .ok toks3 =>
            let base := (curTok toks3).value.asStr
            match lookupA base ctx.type_map with
            | none => .err (.pyError ("KeyError: \x27" ++ base ++ "\x27"))
            | some base_type =>
              let unit_size := type_sizes base_type
              match eatTok .IDENTIFIER toks3 with
              | .error e => .err e
              | .ok toks4 =>
                match parseVarTail name unit_size base_type tok.line tok.column toks4 rstack ctx with
                | .error e => .err e
                | .ok (toks5, rstack1, ctx1) => parseBlockGo f stops toks5 rstack1 ctx1
      else if kw = "set" then
        let toks1 := toks.tail
        if (curTok toks1).type ≠ .IDENTIFIER then
          .err (.parserError "Expected variable name after \x27set\x27" tok.line tok.column)
        else
          let name := (curTok toks1).value.asStr
          parseBlockGo f stops toks1.tail (Node.storeVar name :: rstack) ctx
      else .err (.parserError ("Unexpected keyword: " ++ kw) tok.line tok.column)
    else if tok.type = .IDENTIFIER then
      let name := tok.value.asStr
      match lookupA name ctx.known_externs with
      | some arg_count =>
        parseBlockGo f stops toks.tail (Node.call name arg_count :: rstack) ctx
      | none =>
        if ctx.known_vars.contains name then
          let toks1 := toks.tail
          if (curTok toks1).type = .LBRACK then
            let toks2 := toks1.tail
            let idx := (curTok toks2).value.asInt
            match eatTok .INTLIT toks2 with
            | .error e => .err e
            | .ok toks3 =>
              match eatTok .RBRACK toks3 with
              | .error e => .err e
              | .ok toks4 =>
                parseBlockGo f stops toks4 (Node.loadVarIdx name idx :: rstack) ctx
          else
            parseBlockGo f stops toks1 (Node.loadVar name :: rstack) ctx
        else
          .err (.parserError ("Unknown identifier: " ++ name ++ ". All known externs: "
            ++ externNamesRepr ctx.known_externs) tok.line tok.column)
    else .err (.parserError ("Unexpected token " ++ tokenRepr tok) tok.line tok.column)

/-- `Parser.parse`: a whole-program `parse_block` with the empty stop set; the
fuel is ample for any token stream (each iteration consumes a token). -/
def parse (toks : List Token) (ctx : Ctx) : PRes :=
  parseBlockGo (toks.length + 1) [] toks [] ctx

/-- The compile-time invariant of the spec: the symbolic type stack and the
tracked depth agree.  `stackDiff` is their (signed) disagreement. -/
def stackDiff (ctx : Ctx) : Int := (ctx.stack_types.length : Int) - ctx.stack_depth

/-- No `IfElse` node occurs in the subtree (to the given depth of fuel; with
fuel at least the tree height this is plain containment). -/
def noIfElseF : Nat → Node → Bool
  | 0, _ => false
  | f + 1, n =>
    match n with
    | .ifElse _ _ _ => false
    | .binaryOp _ l r => noIfElseF f l && noIfElseF f r
    | .compare l r => noIfElseF f l && noIfElseF f r
    | .bangWrapper m => noIfElseF f m
    | .loop c b => noIfElseF f c && b.all (noIfElseF f)
    | .blockExpr es => es.all (noIfElseF f)
    | _ => true

/-- An `Input` node occurs in the subtree (within the given fuel depth). -/
def hasInputF : Nat → Node → Bool
  | 0, _ => false
  | f + 1, n =>
    match n with
    | .input => true
    | .binaryOp _ l r => hasInputF f l || hasInputF f r
    | .compare l r => hasInputF f l || hasInputF f r
    | .bangWrapper m => hasInputF f m
    | .ifElse c ib eb =>
      hasInputF f c || ib.any (hasInputF f) ||
        (match eb with | some ebl => ebl.any (hasInputF f) | none => false)
    | .loop c b => hasInputF f c || b.any (hasInputF f)
    | .blockExpr es => es.any (hasInputF f)
    | _ => false

/-- A line is a call instruction: it starts with the 9 characters
`    call `. -/
def isCallLine (s : String) : Bool := decide (s.data.take 9 = "    call ".data)

/-- Scan emitted lines checking that every call line is immediately preceded
by `    push rbp` and immediately followed by `    pop rbp`; `prev` is the
line before the scan window (a call as the very first or very last line
fails). -/
def bracketOK (prev : String) : List String → Bool
  | [] => true
  | [x] => !isCallLine x
  | x :: y :: rest =>
    (!isCallLine x || (prev == "    push rbp" && y == "    pop rbp"))
      && bracketOK x (y :: rest)

/-- Every call instruction in the emitted lines has its frame-pointer
save/restore immediately around it. -/
def callsBracketed (code : List String) : Bool := bracketOK "" code

/-- The node kinds whose `compile` emits a call that the amended frame-pointer
claim covers: `Call`, `Print`, `Input`, `VarDef`, `ArrayDef` (`StoreVar` is
excluded: its `memcpy` call is not bracketed). -/
def bracketKind : Node → Bool
  | .call _ _ => true
  | .print => true
  | .input => true
  | .varDef _ _ _ => true
  | .arrayDef _ _ _ _ => true
  | _ => false

theorem popArgs_diff : ∀ (n : Nat) (ctx : Ctx) (lines : List String) (ctx' : Ctx),
    popArgs n ctx = .ok (lines, ctx') → stackDiff ctx' = stackDiff ctx := by
  intro n
  induction n with
  | zero =>
    intro ctx lines ctx' h
    simp only [popArgs, Except.ok.injEq, Prod.mk.injEq] at h
    rw [← h.2]
  | succ n ih =>
    intro ctx lines ctx' h
    simp only [popArgs] at h
    split at h
    · exact absurd h (by simp)
    · split at h
      · exact absurd h (by simp)
      · rename_i ts hts
        split at h
        · exact absurd h (by simp)
        · rename_i lines1 ctx1 hrec
          simp only [Except.ok.injEq, Prod.mk.injEq] at h
          rw [← h.2]
          rw [ih _ _ _ hrec]
          simp [stackDiff, hts]
          omega

theorem goList_diff (rec : Node → Ctx → CRes) (p : Node → Bool)
    (hrec : ∀ n ctx code ctx', p n = true → rec n ctx = .ok code ctx' →
      stackDiff ctx' = stackDiff ctx) :
    ∀ (xs : List Node) (ctx : Ctx) (code : List String) (ctx' : Ctx),
      xs.all p = true → goList rec xs ctx = .ok code ctx' → stackDiff ctx' = stackDiff ctx := by
  intro xs
  induction xs with
  | nil =>
    intro ctx code ctx' _ h
    simp only [goList, CRes.ok.injEq] at h
    rw [← h.2]
  | cons n ns ih =>
    intro ctx code ctx' hp h
    simp only [List.all_cons, Bool.and_eq_true] at hp
    simp only [goList] at h
    split at h
    · exact absurd h (by simp)
    · rename_i code1 ctx1 h1
      split at h
      · exact absurd h (by simp)
      · rename_i code2 ctx2 h2
        simp only [CRes.ok.injEq] at h
        rw [← h.2, ih _ _ _ hp.2 h2, hrec _ _ _ _ hp.1 h1]

theorem bang_diff : ∀ (f : Nat) (ctx : Ctx) (code : List String) (ctx' : Ctx),
    compileNodeF f .bang ctx = .ok code ctx' → stackDiff ctx' = stackDiff ctx := by
  intro f ctx code ctx' h
  cases f with
  | zero => exact absurd h (by simp [compileNodeF])
  | succ f =>
    simp only [compileNodeF] at h
    split at h
    · exact absurd h (by simp)
    · rename_i top rest hts
      split at h
      · exact absurd h (by simp)
      · split at h
        · simp only [CRes.ok.injEq] at h
          rw [← h.2]
          simp [stackDiff, hts]
        · exact absurd h (by simp)

theorem add_string_stack_types (ctx : Ctx) (s : String) :
    (ctx.add_string s).2.stack_types = ctx.stack_types := by
  unfold Ctx.add_string
  split
  · rfl
  · rfl

theorem add_string_stack_depth (ctx : Ctx) (s : String) :
    (ctx.add_string s).2.stack_depth = ctx.stack_depth := by
  unfold Ctx.add_string
  split
  · rfl
  · rfl

theorem compile_diff : ∀ (f : Nat) (n : Node) (ctx : Ctx) (code : List String) (ctx' : Ctx),
    noIfElseF f n = true → compileNodeF f n ctx = .ok code ctx' →
    stackDiff ctx' = stackDiff ctx := by
  intro f
  induction f with
  | zero =>
    intro n ctx code ctx' hp h
    exact absurd h (by simp [compileNodeF])
  | succ f ih =>
    intro n ctx code ctx' hp h
    cases n with
    | number v =>
      simp only [compileNodeF, CRes.ok.injEq] at h
      rw [← h.2]
      simp [stackDiff]
    | string s =>
      simp only [compileNodeF] at h
      rcases hadd : ctx.add_string s with ⟨label, ctx1⟩
      rw [hadd] at h
      simp only [CRes.ok.injEq] at h
      have e1 : ctx1.stack_types = ctx.stack_types := by
        rw [show ctx1 = (ctx.add_string s).2 by rw [hadd]]
        exact add_string_stack_types ctx s
      have e2 : ctx1.stack_depth = ctx.stack_depth := by
        rw [show ctx1 = (ctx.add_string s).2 by rw [hadd]]
        exact add_string_stack_depth ctx s
      rw [← h.2]
      simp [stackDiff, e1, e2]
    | binaryOp op l r =>
      simp only [noIfElseF, Bool.and_eq_true] at hp
      simp only [compileNodeF] at h
      split at h
      · exact absurd h (by simp)
      · rename_i cl ctx1 h1
        split at h
        · exact absurd h (by simp)
        · rename_i cr ctx2 h2
          split at h
          · rename_i rt lt rest hts
            split at h
            · exact absurd h (by simp)
            · split at h
              · exact absurd h (by simp)
              · simp only [CRes.ok.injEq] at h
                rw [← h.2]
                have d1 := ih l ctx cl ctx1 hp.1 h1
                have d2 := ih r ctx1 cr ctx2 hp.2 h2
                simp only [stackDiff, hts] at d1 d2 ⊢
                simp at d2 ⊢
                omega
          · exact absurd h (by simp)
    | compare l r =>
      simp only [noIfElseF, Bool.and_eq_true] at hp
      simp only [compileNodeF] at h
      split at h
      · exact absurd h (by simp)
      · rename_i cl ctx1 h1
        split at h
        · exact absurd h (by simp)
        · rename_i cr ctx2 h2
          split at h
          · rename_i rt lt rest hts
            have d1 := ih l ctx cl ctx1 hp.1 h1
            have d2 := ih r ctx1 cr ctx2 hp.2 h2
            split at h
            · simp only [CRes.ok.injEq] at h
              rw [← h.2]
              simp only [stackDiff, hts] at d1 d2 ⊢
              simp at d2 ⊢
              omega
            · split at h
              · simp only [CRes.ok.injEq] at h
                rw [← h.2]
                simp only [stackDiff, hts] at d1 d2 ⊢
                simp at d2 ⊢
                omega
              · exact absurd h (by simp)
          · exact absurd h (by simp)
    | dup =>
      simp only [compileNodeF] at h
      split at h
      · exact absurd h (by simp)
      · simp only [CRes.ok.injEq] at h
        rw [← h.2]
        simp [stackDiff]
    | print =>
      simp only [compileNodeF] at h
      split at h
      · exact absurd h (by simp)
      · split at h
        · exact absurd h (by simp)
        · rename_i typ rest hts
          split at h <;>
          · simp only [CRes.ok.injEq] at h
            rw [← h.2]
            simp [stackDiff, hts]
            omega
    | input =>
      simp only [compileNodeF] at h
      split at h
      · exact absurd h (by simp)
      · rename_i t heq
        rw [show builtinTypesAttr "String" = none from rfl] at heq
        cases heq
    | externDecl e =>
      simp only [compileNodeF, CRes.ok.injEq] at h
      rw [← h.2]
    | call func arg_count =>
      simp only [compileNodeF] at h
      split at h
      · exact absurd h (by simp)
      · split at h
        · exact absurd h (by simp)
        · rename_i lines ctx1 hpa
          simp only [CRes.ok.injEq] at h
          rw [← h.2]
          have := popArgs_diff _ _ _ _ hpa
          simp only [stackDiff] at this ⊢
          simp
          omega
    | varDef name size t =>
      simp only [compileNodeF, Ctx.new_label, CRes.ok.injEq] at h
      rw [← h.2]
      simp [stackDiff]
    | arrayDef name count unit_size base_type =>
      simp only [compileNodeF, Ctx.new_label, CRes.ok.injEq] at h
      rw [← h.2]
      simp [stackDiff]
    | loadVar name =>
      simp only [compileNodeF] at h
      split at h
      · exact absurd h (by simp)
      · simp only [CRes.ok.injEq] at h
        rw [← h.2]
        simp [stackDiff]
    | loadVarIdx name idx =>
      simp only [compileNodeF] at h
      split at h
      · exact absurd h (by simp)
      · simp only [CRes.ok.injEq] at h
        rw [← h.2]
        simp [stackDiff]
    | storeVar name =>
      simp only [compileNodeF] at h
      split at h
      · exact absurd h (by simp)
      · split at h
        · exact absurd h (by simp)
        · split at h
          · exact absurd h (by simp)
          · rename_i e count hcount
            split at h
            · exact absurd h (by simp)
            · rename_i val_type rest hts
              have hlen := congrArg List.length hts
              simp at hlen
              split at h <;>
              · simp only [CRes.ok.injEq] at h
                rw [← h.2]
                simp [stackDiff]
                omega
    | bang => exact bang_diff (f + 1) ctx code ctx' h
    | bangWrapper m =>
      simp only [noIfElseF] at hp
      simp only [compileNodeF] at h
      split at h
      · exact absurd h (by simp)
      · rename_i c1 ctx1 h1
        split at h
        · exact absurd h (by simp)
        · rename_i c2 ctx2 h2
          simp only [CRes.ok.injEq] at h
          rw [← h.2]
          rw [bang_diff f ctx1 c2 ctx2 h2]
          exact ih m ctx c1 ctx1 hp h1
    | ifElse c ib eb => exact absurd hp (by simp [noIfElseF])
    | loop c body =>
      simp only [noIfElseF, Bool.and_eq_true] at hp
      simp only [compileNodeF, Ctx.new_label] at h
      split at h
      · exact absurd h (by simp)
      · rename_i cc ctx3 h1
        split at h
        · exact absurd h (by simp)
        · split at h
          · exact absurd h (by simp)
          · rename_i t rest hts
            split at h
            · exact absurd h (by simp)
            · rename_i bodyc ctx6 h2
              simp only [CRes.ok.injEq] at h
              rw [← h.2]
              have hlen := congrArg List.length hts
              simp at hlen
              have d1 := ih c _ cc ctx3 hp.1 h1
              have d2 := goList_diff (compileNodeF f) (noIfElseF f)
                (fun n ctx code ctx' a b => ih n ctx code ctx' a b) body _ bodyc ctx6 hp.2 h2
              simp [stackDiff] at d1 d2 ⊢
              omega
    | blockExpr es =>
      simp only [noIfElseF] at hp
      simp only [compileNodeF] at h
      exact goList_diff (compileNodeF f) (noIfElseF f)
        (fun n ctx code ctx' a b => ih n ctx code ctx' a b) es ctx code ctx' hp h

theorem isCallLine_concat_left (a b : String) (h : 9 ≤ a.data.length) :
    isCallLine (a ++ b) = isCallLine a := by
  unfold isCallLine
  rw [String.data_append, List.take_append_of_le_length h]

theorem isCallLine_call (fn : String) : isCallLine ("    call " ++ fn) = true := by
  rw [isCallLine_concat_left _ _ (by decide)]
  decide

theorem isCallLine_movRdi (s : String) : isCallLine ("    mov rdi, " ++ s) = false := by
  rw [isCallLine_concat_left _ _ (by decide)]
  decide

theorem isCallLine_movBracket (s : String) : isCallLine ("    mov [" ++ s) = false := by
  rw [isCallLine_concat_left _ _ (by decide)]
  decide

theorem isCallLine_popReg (s : String) : isCallLine ("    pop " ++ s) = false := by
  unfold isCallLine
  simp only [decide_eq_false_iff_not]
  intro hEq
  have h4 := congrArg (fun l => l.get? 4) hEq
  simp only [List.get?_take (show 4 < 9 by norm_num), String.data_append] at h4
  rw [List.get?_append (by decide)] at h4
  simp at h4

theorem popArgs_lines_nocall : ∀ (n : Nat) (ctx : Ctx) (lines : List String) (ctx' : Ctx),
    popArgs n ctx = .ok (lines, ctx') → ∀ l ∈ lines, isCallLine l = false := by
  intro n
  induction n with
  | zero =>
    intro ctx lines ctx' h
    simp only [popArgs, Except.ok.injEq, Prod.mk.injEq] at h
    rw [← h.1]
    intro l hl
    cases hl
  | succ n ih =>
    intro ctx lines ctx' h
    simp only [popArgs] at h
    split at h
    · exact absurd h (by simp)
    · rename_i reg hreg
      split at h
      · exact absurd h (by simp)
      · split at h
        · exact absurd h (by simp)
        · rename_i lines1 ctx1 hrec
          simp only [Except.ok.injEq, Prod.mk.injEq] at h
          rw [← h.1]
          intro l hl
          rcases List.mem_cons.1 hl with hl | hl
          · rw [hl]
            exact isCallLine_popReg reg
          · exact ih _ _ _ hrec l hl

theorem bracketOK_append_nocall :
    ∀ (pre : List String) (suffix : List String) (p : String),
      (∀ l ∈ pre, isCallLine l = false) → suffix ≠ [] →
      bracketOK p (pre ++ suffix) = bracketOK (pre.getLastD p) suffix := by
  intro pre
  induction pre with
  | nil => intro suffix p _ _; rfl
  | cons a rest ih =>
    intro suffix p hpre hsuf
    rcases hzs : rest ++ suffix with _ | ⟨z, zs⟩
    · rcases List.append_eq_nil.1 hzs with ⟨_, h2⟩
      exact absurd h2 hsuf
    · have ha : isCallLine a = false := hpre a (List.mem_cons_self a rest)
      rw [List.cons_append, hzs]
      show ((!isCallLine a || (p == "    push rbp" && z == "    pop rbp"))
        && bracketOK a (z :: zs)) = _
      rw [ha]
      simp only [Bool.not_false, Bool.true_or, Bool.true_and]
      rw [← hzs, ih suffix a (fun l hl => hpre l (List.mem_cons_of_mem a hl)) hsuf,
        List.getLastD_cons]

theorem bracketOK_callBlock (p fn : String) :
    bracketOK p ("    push rbp" :: ("    call " ++ fn) :: "    pop rbp" :: ["    push rax"]) = true := by
  simp only [bracketOK, isCallLine_call,
    show isCallLine "    push rbp" = false from by decide,
    show isCallLine "    pop rbp" = false from by decide,
    show isCallLine "    push rax" = false from by decide]
  simp

theorem isCallLine_movLblLine (label tail_ : String) :
    isCallLine ("    mov [" ++ label ++ tail_) = false := by
  have h9 : 9 ≤ ("    mov [" ++ label).data.length := by
    rw [String.data_append, List.length_append]
    have h : "    mov [".data.length = 9 := by decide
    omega
  rw [isCallLine_concat_left _ _ h9, isCallLine_movBracket]

theorem compile_bracketed : ∀ (f : Nat) (n : Node) (ctx : Ctx) (code : List String) (ctx' : Ctx),
    bracketKind n = true → compileNodeF f n ctx = .ok code ctx' → callsBracketed code = true := by
  intro f n ctx code ctx' hk h
  cases f with
  | zero => exact absurd h (by simp [compileNodeF])
  | succ f =>
    cases n with
    | print =>
      simp only [compileNodeF] at h
      split at h
      · exact absurd h (by simp)
      · split at h
        · exact absurd h (by simp)
        · split at h <;>
          · simp only [CRes.ok.injEq] at h
            rw [← h.1]
            decide
    | input =>
      simp only [compileNodeF] at h
      split at h
      · exact absurd h (by simp)
      · rename_i t heq
        rw [show builtinTypesAttr "String" = none from rfl] at heq
        cases heq
    | call func arg_count =>
      simp only [compileNodeF] at h
      split at h
      · exact absurd h (by simp)
      · split at h
        · exact absurd h (by simp)
        · rename_i lines ctx1 hpa
          simp only [CRes.ok.injEq] at h
          rw [← h.1]
          unfold callsBracketed
      
          rw [show lines ++ ["    push rbp", "    call " ++ func, "    pop rbp", "    push rax"]
              = lines ++ ("    push rbp" :: ("    call " ++ func) :: "    pop rbp" :: ["    push rax"]) from rfl]
          rw [bracketOK_append_nocall lines _ "" (popArgs_lines_nocall _ _ _ _ hpa) (by simp)]
          exact bracketOK_callBlock _ func
    | varDef name size t =>
      simp only [compileNodeF, Ctx.new_label, CRes.ok.injEq] at h
      rw [← h.1]
      simp only [callsBracketed, bracketOK, isCallLine_movRdi, isCallLine_movLblLine,
        show isCallLine "    push rbp" = false from by decide,
        show isCallLine "    call new" = true from by decide,
        show isCallLine "    pop rbp" = false from by decide]
      simp
    | arrayDef name count unit_size base_type =>
      simp only [compileNodeF, Ctx.new_label, CRes.ok.injEq] at h
      rw [← h.1]
      simp only [callsBracketed, bracketOK, isCallLine_movRdi, isCallLine_movLblLine,
        show isCallLine "    push rbp" = false from by decide,
        show isCallLine "    call new" = true from by decide,
        show isCallLine "    pop rbp" = false from by decide]
      simp
    | number v => exact absurd hk (by simp [bracketKind])
    | string s => exact absurd hk (by simp [bracketKind])
    | binaryOp op l r => exact absurd hk (by simp [bracketKind])
    | compare l r => exact absurd hk (by simp [bracketKind])
    | dup => exact absurd hk (by simp [bracketKind])
    | bang => exact absurd hk (by simp [bracketKind])
    | bangWrapper m => exact absurd hk (by simp [bracketKind])
    | ifElse c ib eb => exact absurd hk (by simp [bracketKind])
    | externDecl e => exact absurd hk (by simp [bracketKind])
    | loadVar name => exact absurd hk (by simp [bracketKind])
    | loadVarIdx name idx => exact absurd hk (by simp [bracketKind])
    | storeVar name => exact absurd hk (by simp [bracketKind])
    | loop c body => exact absurd hk (by simp [bracketKind])
    | blockExpr es => exact absurd hk (by simp [bracketKind])

theorem goList_nok (rec : Node → Ctx → CRes) (q : Node → Bool)
    (hrec : ∀ n, q n = true → ∀ ctx code ctx', rec n ctx ≠ .ok code ctx') :
    ∀ (xs : List Node) (ctx : Ctx) (code : List String) (ctx' : Ctx),
      xs.any q = true → goList rec xs ctx ≠ .ok code ctx' := by
  intro xs
  induction xs with
  | nil => intro ctx code ctx' hq; simp at hq
  | cons n ns ih =>
    intro ctx code ctx' hq heq
    simp only [List.any_cons, Bool.or_eq_true] at hq
    simp only [goList] at heq
    split at heq
    · exact absurd heq (by simp)
    · rename_i code1 ctx1 h1
      rcases hq with hq | hq
      · exact hrec n hq ctx code1 ctx1 h1
      · split at heq
        · exact absurd heq (by simp)
        · rename_i code2 ctx2 h2
          exact ih ctx1 code2 ctx2 hq h2

theorem hasInput_nok : ∀ (f : Nat) (n : Node), hasInputF f n = true →
    ∀ (ctx : Ctx) (code : List String) (ctx' : Ctx), compileNodeF f n ctx ≠ .ok code ctx' := by
  intro f
  induction f with
  | zero => intro n hn; simp [hasInputF] at hn
  | succ f ih =>
    intro n hn ctx code ctx' heq
    cases n with
    | input =>
      simp only [compileNodeF] at heq
      split at heq
      · exact absurd heq (by simp)
      · rename_i t ha
        rw [show builtinTypesAttr "String" = none from rfl] at ha
        cases ha
    | binaryOp op l r =>
      simp only [hasInputF, Bool.or_eq_true] at hn
      simp only [compileNodeF] at heq
      split at heq
      · exact absurd heq (by simp)
      · rename_i cl ctx1 h1
        rcases hn with hn | hn
        · exact ih l hn ctx cl ctx1 h1
        · split at heq
          · exact absurd heq (by simp)
          · rename_i cr ctx2 h2
            exact ih r hn ctx1 cr ctx2 h2
    | compare l r =>
      simp only [hasInputF, Bool.or_eq_true] at hn
      simp only [compileNodeF] at heq
      split at heq
      · exact absurd heq (by simp)
      · rename_i cl ctx1 h1
        rcases hn with hn | hn
        · exact ih l hn ctx cl ctx1 h1
        · split at heq
          · exact absurd heq (by simp)
          · rename_i cr ctx2 h2
            exact ih r hn ctx1 cr ctx2 h2
    | bangWrapper m =>
      simp only [hasInputF] at hn
      simp only [compileNodeF] at heq
      split at heq
      · exact absurd heq (by simp)
      · rename_i c1 ctx1 h1
        exact ih m hn ctx c1 ctx1 h1
    | ifElse c ib eb =>
      simp only [hasInputF, Bool.or_eq_true] at hn
      simp only [compileNodeF] at heq
      split at heq
      · exact absurd heq (by simp)
      · rename_i cc ctx1 h1
        split at heq
        · exact absurd heq (by simp)
        · split at heq
          · exact absurd heq (by simp)
          · rename_i ibc ctx5 h2
            rcases hn with (hn | hn) | hn
            · exact ih c hn _ cc ctx1 h1
            · exact goList_nok (compileNodeF f) (hasInputF f)
                (fun n a ctx code ctx' b => ih n a ctx code ctx' b) ib _ ibc ctx5 hn h2
            · cases eb with
              | none => simp at hn
              | some ebl =>
                split at heq
                · exact absurd heq (by simp)
                · rename_i ebc ctx6 h3
                  exact goList_nok (compileNodeF f) (hasInputF f)
                    (fun n a ctx code ctx' b => ih n a ctx code ctx' b) ebl _ ebc ctx6 hn h3
    | loop c body =>
      simp only [hasInputF, Bool.or_eq_true] at hn
      simp only [compileNodeF, Ctx.new_label] at heq
      split at heq
      · exact absurd heq (by simp)
      · rename_i cc ctx3 h1
        rcases hn with hn | hn
        · exact ih c hn _ cc ctx3 h1
        · split at heq
          · exact absurd heq (by simp)
          · split at heq
            · exact absurd heq (by simp)
            · split at heq
              · exact absurd heq (by simp)
              · rename_i bodyc ctx6 h2
                exact goList_nok (compileNodeF f) (hasInputF f)
                  (fun n a ctx code ctx' b => ih n a ctx code ctx' b) body _ bodyc ctx6 hn h2
    | blockExpr es =>
      simp only [hasInputF] at hn
      simp only [compileNodeF] at heq
      exact goList_nok (compileNodeF f) (hasInputF f)
        (fun n a ctx code ctx' b => ih n a ctx code ctx' b) es ctx code ctx' hn heq
    | number v => simp [hasInputF] at hn
    | string s => simp [hasInputF] at hn
    | dup => simp [hasInputF] at hn
    | print => simp [hasInputF] at hn
    | bang => simp [hasInputF] at hn
    | externDecl e => simp [hasInputF] at hn
    | call func arg_count => simp [hasInputF] at hn
    | varDef name size t => simp [hasInputF] at hn
    | arrayDef name count unit_size base_type => simp [hasInputF] at hn
    | loadVar name => simp [hasInputF] at hn
    | loadVarIdx name idx => simp [hasInputF] at hn
    | storeVar name => simp [hasInputF] at hn

/-- C1 (amended): every AST node whose subtree contains no `IfElse` preserves
the `len(stack_types) == stack_depth` invariant across a `compile` that
returns normally — in particular `Loop.compile` does.  (`IfElse.compile`
itself breaks the invariant: see the counterexample.) -/
theorem compile_preserves_stack_invariant (f : Nat) (n : Node) (ctx : Ctx)
    (code : List String) (ctx' : Ctx)
    (hp : noIfElseF f n = true)
    (hinv : (ctx.stack_types.length : Int) = ctx.stack_depth)
    (h : compileNodeF f n ctx = .ok code ctx') :
    (ctx'.stack_types.length : Int) = ctx'.stack_depth := by
  have hd := compile_diff f n ctx code ctx' hp h
  simp only [stackDiff] at hd
  omega

/-- C1 witness: a concrete `Loop` compile (condition `1`, empty body) starting
from the invariant-satisfying empty context keeps the invariant. -/
theorem compile_preserves_stack_invariant_witness :
    (((⟨0, [], 2, [], [], [], [], defaultTypeMap⟩ : Ctx)).stack_types.length : Int) =
      (⟨0, [], 2, [], [], [], [], defaultTypeMap⟩ : Ctx).stack_depth :=
  compile_preserves_stack_invariant 2 (.loop (.number 1) []) emptyCtx
    ["L0:", "    push 1", "    pop rax", "    cmp rax, 0", "    je L1", "    jmp L0", "L1:"]
    ⟨0, [], 2, [], [], [], [], defaultTypeMap⟩ (by decide) (by decide) (by decide)

/-- C1 counterexample: `IfElse.compile` decrements `stack_depth` for the
condition but never pops `stack_types` (src/core/parser.py line 209), so
compiling `1 if end` from the empty context returns normally with
`len(stack_types) = 1` but `stack_depth = 0`. -/
theorem ifElse_violates_stack_invariant :
    (emptyCtx.stack_types.length : Int) = emptyCtx.stack_depth ∧
    compileNodeF 2 (.ifElse (.number 1) [] none) emptyCtx =
      .ok ["    push 1", "    pop rax", "    cmp rax, 0", "    je L0", "    jmp L1", "L0:", "L1:"]
        ⟨0, [.UInt], 2, [], [], [], [], defaultTypeMap⟩ ∧
    ¬ (((⟨0, [.UInt], 2, [], [], [], [], defaultTypeMap⟩ : Ctx).stack_types.length : Int) =
        (⟨0, [.UInt], 2, [], [], [], [], defaultTypeMap⟩ : Ctx).stack_depth) := by
  refine ⟨by decide, by decide, by decide⟩

/-- C2: whenever the operand stack of AST nodes holds fewer than two nodes and
the current token is a binary arithmetic operator (`+ - * /`), `parse_block`
raises exactly `ParserError("Not enough operands for binary operator")` at
the operator token's position. -/
theorem parse_binop_insufficient_operands (f : Nat) (stops : List String)
    (toks : List Token) (rstack : List Node) (ctx : Ctx)
    (hop : (curTok toks).type = .PLUS ∨ (curTok toks).type = .MINUS ∨
           (curTok toks).type = .STAR ∨ (curTok toks).type = .SLASH)
    (hlen : rstack.length < 2) :
    parseBlockGo (f + 1) stops toks rstack ctx =
      .err (.parserError "Not enough operands for binary operator"
        (curTok toks).line (curTok toks).column) := by
  rcases rstack with _ | ⟨a, _ | ⟨b, rest⟩⟩
  · rcases hop with h | h | h | h <;> simp [parseBlockGo, h]
  · rcases hop with h | h | h | h <;> simp [parseBlockGo, h]
  · simp at hlen
    omega

/-- C2 witness: the token stream of the source `"+"` (one `+` token, zero
preceding operands) fails with exactly that ParserError at line 1, column 1. -/
theorem parse_plus_insufficient_operands_witness :
    parse [⟨.PLUS, .vstr "+", 1, 1⟩, ⟨.EOF, .vnone, 1, 2⟩] emptyCtx =
      .err (.parserError "Not enough operands for binary operator" 1 1) :=
  parse_binop_insufficient_operands 2 []
    [⟨.PLUS, .vstr "+", 1, 1⟩, ⟨.EOF, .vnone, 1, 2⟩] [] emptyCtx (Or.inl rfl) (by decide)

/-- C3: `Lexer.lex` does not surface lexing failures: on the unknown character
`!` and on an unterminated string literal, `get_next_token` raises the typed
`LexerError`, but `lex` catches it (printing) and returns the default `None`. -/
theorem lex_swallows_lexer_error :
    Lx.lex "!" = none ∧
    Lx.getNextToken 2 (Lx.initSt "!") = .error ⟨"Unknown character: !", 1, 1⟩ ∧
    Lx.lex "\"abc" = none ∧
    Lx.getNextToken 5 (Lx.initSt "\"abc") = .error ⟨"Unterminated string literal", 1, 1⟩ :=
  ⟨by decide, by rfl, by decide, by rfl⟩

/-- C4 counterexample: src/core/lexer.py has no BANG or bracket token kinds
(`!` and `[` are unknown characters, so `lex` yields no token sequence at
all), and `var` is not in its reserved keyword set (it lexes as IDENTIFIER,
as do `set`, `loop` and `do`). -/
theorem lexer_missing_kinds_counterexample :
    Lx.lex "!" = none ∧
    Lx.lex "[" = none ∧
    Lx.lex "var" = some [⟨.IDENTIFIER, .vstr "var", 1, 1⟩, ⟨.EOF, .vnone, 1, 4⟩] ∧
    Lx.lex "set" = some [⟨.IDENTIFIER, .vstr "set", 1, 1⟩, ⟨.EOF, .vnone, 1, 4⟩] ∧
    Lx.lex "loop" = some [⟨.IDENTIFIER, .vstr "loop", 1, 1⟩, ⟨.EOF, .vnone, 1, 5⟩] ∧
    Lx.lex "do" = some [⟨.IDENTIFIER, .vstr "do", 1, 1⟩, ⟨.EOF, .vnone, 1, 3⟩] := by
  refine ⟨by decide, by decide, by decide, by decide, by decide, by decide⟩

/-- C4 (amended): for every token kind the lexer under src/ actually has —
NUMBER, STRING, IDENTIFIER, KEYWORD over the reserved set
`if else end dup print input extern`, and the operators `+ - * / ?` —
lexing a minimal one-token snippet yields exactly that token (exact value,
1-based line/column) plus EOF. -/
theorem lexer_roundtrip_actual_kinds :
    Lx.lex "5" = some [⟨.NUMBER, .vint 5, 1, 1⟩, ⟨.EOF, .vnone, 1, 2⟩] ∧
    Lx.lex "\"hi\"" = some [⟨.STRING, .vstr "hi", 1, 1⟩, ⟨.EOF, .vnone, 1, 5⟩] ∧
    Lx.lex "foo" = some [⟨.IDENTIFIER, .vstr "foo", 1, 1⟩, ⟨.EOF, .vnone, 1, 4⟩] ∧
    Lx.lex "if" = some [⟨.KEYWORD, .vstr "if", 1, 1⟩, ⟨.EOF, .vnone, 1, 3⟩] ∧
    Lx.lex "else" = some [⟨.KEYWORD, .vstr "else", 1, 1⟩, ⟨.EOF, .vnone, 1, 5⟩] ∧
    Lx.lex "end" = some [⟨.KEYWORD, .vstr "end", 1, 1⟩, ⟨.EOF, .vnone, 1, 4⟩] ∧
    Lx.lex "dup" = some [⟨.KEYWORD, .vstr "dup", 1, 1⟩, ⟨.EOF, .vnone, 1, 4⟩] ∧
    Lx.lex "print" = some [⟨.KEYWORD, .vstr "print", 1, 1⟩, ⟨.EOF, .vnone, 1, 6⟩] ∧
    Lx.lex "input" = some [⟨.KEYWORD, .vstr "input", 1, 1⟩, ⟨.EOF, .vnone, 1, 6⟩] ∧
    Lx.lex "extern" = some [⟨.KEYWORD, .vstr "extern", 1, 1⟩, ⟨.EOF, .vnone, 1, 7⟩] ∧
    Lx.lex "+" = some [⟨.PLUS, .vstr "+", 1, 1⟩, ⟨.EOF, .vnone, 1, 2⟩] ∧
    Lx.lex "-" = some [⟨.MINUS, .vstr "-", 1, 1⟩, ⟨.EOF, .vnone, 1, 2⟩] ∧
    Lx.lex "*" = some [⟨.MULTIPLY, .vstr "*", 1, 1⟩, ⟨.EOF, .vnone, 1, 2⟩] ∧
    Lx.lex "/" = some [⟨.DIVIDE, .vstr "/", 1, 1⟩, ⟨.EOF, .vnone, 1, 2⟩] ∧
    Lx.lex "?" = some [⟨.COMPARE, .vstr "?", 1, 1⟩, ⟨.EOF, .vnone, 1, 2⟩] := by
  refine ⟨by decide, by decide, by decide, by decide, by decide, by decide, by decide, by decide,
    by decide, by decide, by decide, by decide, by decide, by decide, by decide⟩

/-- C5 counterexample: the condition sub-parse of `loop 1 2 do end` yields two
residual nodes, yet parsing succeeds, wrapping both into one `BlockExpr` —
it does not fail on more than one residual node. -/
theorem loop_multi_node_condition_accepted :
    parse [⟨.KEYWORD, .vstr "loop", 1, 1⟩, ⟨.INTLIT, .vint 1, 1, 6⟩, ⟨.INTLIT, .vint 2, 1, 8⟩,
           ⟨.KEYWORD, .vstr "do", 1, 10⟩, ⟨.KEYWORD, .vstr "end", 1, 13⟩, ⟨.EOF, .vnone, 1, 16⟩]
      emptyCtx =
    .ok [.loop (.blockExpr [.number 1, .number 2]) []] [⟨.EOF, .vnone, 1, 16⟩] emptyCtx := by
  rfl

/-- C5 (amended): parsing a `loop` fails (`No condition provided for loop`)
exactly when the condition sub-parse yields zero residual nodes; when it
yields one or more, all residual nodes are wrapped into a single `BlockExpr`
condition and parsing continues without a multiplicity error. -/
theorem loop_condition_zero_or_many (f : Nat) (stops : List String)
    (toks : List Token) (rstack : List Node) (ctx : Ctx)
    (hkw : (curTok toks).type = .KEYWORD)
    (hval : (curTok toks).value = .vstr "loop")
    (hstop : stops.contains "loop" = false) :
    (∀ rest1 ctx1,
      parseBlockGo f ["do"] toks.tail [] ctx = .ok [] rest1 ctx1 →
      parseBlockGo (f + 1) stops toks rstack ctx =
        .err (.parserError "No condition provided for loop"
          (curTok toks).line (curTok toks).column)) ∧
    (∀ c1 cs rest1 ctx1 toks2 body toks3 ctx2,
      parseBlockGo f ["do"] toks.tail [] ctx = .ok (c1 :: cs) rest1 ctx1 →
      eatTok .KEYWORD rest1 = .ok toks2 →
      parseBlockGo f ["end"] toks2 [] ctx1 = .ok body toks3 ctx2 →
      (curTok toks3).type = .KEYWORD →
      (curTok toks3).value = .vstr "end" →
      parseBlockGo (f + 1) stops toks rstack ctx =
        parseBlockGo f stops toks3.tail
          (Node.loop (Node.blockExpr (c1 :: cs)) body :: rstack) ctx2) := by
  have hstop' : "loop" ∉ stops := by simpa using hstop
  constructor
  · intro rest1 ctx1 hcond
    simp [parseBlockGo, hkw, hval, hstop', hcond, TokValue.asStr]
  · intro c1 cs rest1 ctx1 toks2 body toks3 ctx2 hcond heat hbody hkw3 hval3
    simp [parseBlockGo, hkw, hval, hstop', hcond, heat, hbody, hkw3, hval3, TokValue.asStr]

/-- C5 witness: parsing `loop do end` (empty condition sub-parse) fails with
`No condition provided for loop` at the `loop` token. -/
theorem loop_condition_witness :
    parseBlockGo 6 []
      [⟨.KEYWORD, .vstr "loop", 1, 1⟩, ⟨.KEYWORD, .vstr "do", 1, 6⟩,
       ⟨.KEYWORD, .vstr "end", 1, 9⟩, ⟨.EOF, .vnone, 1, 12⟩] [] emptyCtx =
      .err (.parserError "No condition provided for loop" 1 1) :=
  (loop_condition_zero_or_many 5 []
    [⟨.KEYWORD, .vstr "loop", 1, 1⟩, ⟨.KEYWORD, .vstr "do", 1, 6⟩,
     ⟨.KEYWORD, .vstr "end", 1, 9⟩, ⟨.EOF, .vnone, 1, 12⟩] [] emptyCtx
    rfl rfl rfl).1
    [⟨.KEYWORD, .vstr "do", 1, 6⟩, ⟨.KEYWORD, .vstr "end", 1, 9⟩, ⟨.EOF, .vnone, 1, 12⟩]
    emptyCtx rfl

/-- C6 counterexample: `StoreVar.compile`'s `memcpy` call (src/core/parser.py
lines 382-385) is emitted with no `push rbp` before and no `pop rbp` after. -/
theorem storeVar_memcpy_unbracketed :
    compileNodeF 1 (.storeVar "s")
      ⟨1, [.InlineString], 1, [], [("s", ⟨"L0", 4, .Char, some 4⟩)], [], [], defaultTypeMap⟩ =
      .ok ["    pop rax", "    mov rsi, rax", "    mov rdi, [L0]", "    mov rdx, 4", "    call memcpy"]
        ⟨0, [], 1, [], [("s", ⟨"L0", 4, .Char, some 4⟩)], [], [], defaultTypeMap⟩ ∧
    callsBracketed
      ["    pop rax", "    mov rsi, rax", "    mov rdi, [L0]", "    mov rdx, 4", "    call memcpy"]
      = false := by
  refine ⟨by decide, by decide⟩

/-- C6 (amended): every `call` instruction emitted by `Call.compile`,
`Print.compile`, `Input.compile`, `VarDef.compile` or `ArrayDef.compile` is
immediately preceded by `push rbp` and immediately followed by `pop rbp`;
`StoreVar.compile`'s `memcpy` call is not (see the counterexample). -/
theorem calls_frame_bracketed (f : Nat) (n : Node) (ctx : Ctx)
    (code : List String) (ctx' : Ctx)
    (hk : bracketKind n = true) (h : compileNodeF f n ctx = .ok code ctx') :
    callsBracketed code = true :=
  compile_bracketed f n ctx code ctx' hk h

/-- C6 witness: a concrete one-argument external call compiles to marshalling
plus a bracketed `call`. -/
theorem calls_frame_bracketed_witness :
    callsBracketed ["    pop rdi", "    push rbp", "    call foo", "    pop rbp", "    push rax"]
      = true :=
  calls_frame_bracketed 1 (.call "foo" 1) ⟨1, [.UInt], 0, [], [], [], [], defaultTypeMap⟩
    ["    pop rdi", "    push rbp", "    call foo", "    pop rbp", "    push rax"]
    ⟨1, [.UInt], 0, [], [], [], [], defaultTypeMap⟩ (by decide) (by decide)

/-- C7: `IfElse.compile` allocates exactly two fresh counter labels — first
the else label `L(n)`, then the end label `L(n+1)`, where `n` is the label
counter after the condition — and emits: condition, `pop rax`,
`cmp rax, 0`, a conditional jump to the else label, the then-body, an
unconditional `jmp` to the end label, the else label (the false/fallthrough
target) immediately before the else body, and the end label last (immediately
after the else label when the else body is empty). -/
theorem ifElse_label_structure (f : Nat) (c : Node) (ib ebl : List Node) (ctx : Ctx)
    (cc : List String) (ctx1 : Ctx) (ibc : List String) (ctx5 : Ctx)
    (ebc : List String) (ctx6 : Ctx)
    (hc : compileNodeF f c ctx = .ok cc ctx1)
    (hd : ¬ ctx1.stack_depth = 0)
    (hib : goList (compileNodeF f) ib
      { ctx1 with stack_depth := ctx1.stack_depth - 1,
                  label_counter := ctx1.label_counter + 1 + 1 } = .ok ibc ctx5)
    (heb : goList (compileNodeF f) ebl ctx5 = .ok ebc ctx6) :
    compileNodeF (f + 1) (.ifElse c ib (some ebl)) ctx =
      .ok (cc ++ ["    pop rax"]
           ++ ["    cmp rax, 0", "    je " ++ labelName ctx1.label_counter]
           ++ ibc ++ ["    jmp " ++ labelName (ctx1.label_counter + 1)]
           ++ [labelName ctx1.label_counter ++ ":"]
           ++ ebc ++ [labelName (ctx1.label_counter + 1) ++ ":"]) ctx6 := by
  simp only [compileNodeF, Ctx.new_label]
  rw [hc]
  simp only [hd, if_false]
  simp only [hib, heb]

/-- C7 witness: the program `1 if 2 else 3 end` compiles to exactly the
two-label shape with `L0` (else) and `L1` (end). -/
theorem ifElse_label_structure_witness :
    compileNodeF 2 (.ifElse (.number 1) [.number 2] (some [.number 3])) emptyCtx =
      .ok ["    push 1", "    pop rax", "    cmp rax, 0", "    je L0", "    push 2",
           "    jmp L1", "L0:", "    push 3", "L1:"]
        ⟨2, [.UInt, .UInt, .UInt], 2, [], [], [], [], defaultTypeMap⟩ :=
  ifElse_label_structure 1 (.number 1) [.number 2] [.number 3] emptyCtx
    ["    push 1"] ⟨1, [.UInt], 0, [], [], [], [], defaultTypeMap⟩
    ["    push 2"] ⟨1, [.UInt, .UInt], 2, [], [], [], [], defaultTypeMap⟩
    ["    push 3"] ⟨2, [.UInt, .UInt, .UInt], 2, [], [], [], [], defaultTypeMap⟩
    (by decide) (by decide) (by decide) (by decide)

/-- C8: after compiling both operands of a `BinaryOp`, if the two symbolic
types on top of the stack are not both Number (`UInt`), code generation fails
with the type-mismatch error (`Binary operations only supported on numbers`)
and emits nothing; if both are Number and the operator is one of `+ - * /`,
it succeeds and pushes exactly one Number symbolic type. -/
theorem binaryOp_type_check (f : Nat) (op : String) (l r : Node) (ctx : Ctx)
    (cl : List String) (ctx1 : Ctx) (cr : List String) (ctx2 : Ctx)
    (rt lt : BuiltinTypes) (rest : List BuiltinTypes)
    (hl : compileNodeF f l ctx = .ok cl ctx1)
    (hr : compileNodeF f r ctx1 = .ok cr ctx2)
    (hts : ctx2.stack_types = rt :: lt :: rest) :
    (¬ (rt = .UInt ∧ lt = .UInt) →
      compileNodeF (f + 1) (.binaryOp op l r) ctx =
        .err "Binary operations only supported on numbers" { ctx2 with stack_types := rest }) ∧
    ((rt = .UInt ∧ lt = .UInt) → (op = "+" ∨ op = "-" ∨ op = "*" ∨ op = "/") →
      ∃ oplines, binOpcode op = some oplines ∧
        compileNodeF (f + 1) (.binaryOp op l r) ctx =
          .ok (cl ++ cr ++ ["    pop rbx", "    pop rax"] ++ oplines ++ ["    push rax"])
            { ctx2 with stack_types := .UInt :: rest, stack_depth := ctx2.stack_depth - 1 }) := by
  constructor
  · intro hmm
    have h' : rt ≠ .UInt ∨ lt ≠ .UInt := by tauto
    simp [compileNodeF, hl, hr, hts, h']
  · rintro ⟨rfl, rfl⟩ hop
    rcases hop with rfl | rfl | rfl | rfl <;>
      exact ⟨_, rfl, by simp [compileNodeF, hl, hr, hts, binOpcode]⟩

/-- C8 witness: compiling `"a" 3 +` (InlineString below Number) fails with the
type-mismatch error, and `3 4 +` succeeds pushing one Number. -/
theorem binaryOp_type_check_witness :
    compileNodeF 2 (.binaryOp "+" (.string "a") (.number 3)) emptyCtx =
      .err "Binary operations only supported on numbers"
        ⟨2, [], 0, [("a", "S0")], [], [], [], defaultTypeMap⟩ ∧
    compileNodeF 2 (.binaryOp "+" (.number 3) (.number 4)) emptyCtx =
      .ok ["    push 3", "    push 4", "    pop rbx", "    pop rax", "    add rax, rbx", "    push rax"]
        ⟨1, [.UInt], 0, [], [], [], [], defaultTypeMap⟩ := by
  constructor
  · exact (binaryOp_type_check 1 "+" (.string "a") (.number 3) emptyCtx
      ["    lea rax, [S0]", "    push rax"] ⟨1, [.InlineString], 0, [("a", "S0")], [], [], [], defaultTypeMap⟩
      ["    push 3"] ⟨2, [.UInt, .InlineString], 0, [("a", "S0")], [], [], [], defaultTypeMap⟩
      .UInt .InlineString [] (by decide) (by decide) (by decide)).1 (by decide)
  · obtain ⟨oplines, hop, h⟩ := (binaryOp_type_check 1 "+" (.number 3) (.number 4) emptyCtx
      ["    push 3"] ⟨1, [.UInt], 0, [], [], [], [], defaultTypeMap⟩
      ["    push 4"] ⟨2, [.UInt, .UInt], 0, [], [], [], [], defaultTypeMap⟩
      .UInt .UInt [] (by decide) (by decide) (by decide)).2 ⟨rfl, rfl⟩ (Or.inl rfl)
    have hol : oplines = ["    add rax, rbx"] := by
      have : binOpcode "+" = some ["    add rax, rbx"] := by decide
      rw [this] at hop
      exact (Option.some.injEq _ _ ▸ hop).symm
    rw [hol] at h
    exact h

/-- C9: `Input.compile` fails on every context — the attribute lookup
`BuiltinTypes.String` has no member to resolve to — and it raises before
mutating anything (the error context is the input context unchanged); hence
no program containing an `Input` node ever compiles to assembly. -/
theorem input_never_compiles :
    (∀ (f : Nat) (ctx : Ctx),
      compileNodeF (f + 1) .input ctx = .err "AttributeError: String" ctx) ∧
    (∀ (f : Nat) (prog : List Node) (ctx : Ctx) (code : List String) (ctx' : Ctx),
      prog.any (hasInputF f) = true → compileProgF f prog ctx ≠ .ok code ctx') := by
  constructor
  · intro f ctx
    rfl
  · intro f prog ctx code ctx' hany
    exact goList_nok (compileNodeF f) (hasInputF f)
      (fun n a c cd c' b => hasInput_nok f n a c cd c' b) prog ctx code ctx' hany

/-- C9 witness: the one-statement program `input` fails, unchanged context. -/
theorem input_never_compiles_witness :
    compileNodeF 1 .input emptyCtx = .err "AttributeError: String" emptyCtx ∧
    compileProgF 1 [.input] emptyCtx ≠ .ok [] emptyCtx :=
  ⟨input_never_compiles.1 0 emptyCtx,
   input_never_compiles.2 1 [.input] emptyCtx [] emptyCtx (by decide)⟩

/-- C10: type-mismatch failures are not atomic: when `Bang.compile` rejects a
non-Number operand the type has been popped and `stack_depth` decremented
before the raise, and when `BinaryOp.compile` rejects, both operand types have
been popped (depth untouched) — so the observed post-failure context differs
from the pre-call one. -/
theorem mismatch_mutates_context :
    (∀ (f : Nat) (ctx : Ctx) (t : BuiltinTypes) (rest : List BuiltinTypes),
      ctx.stack_depth ≠ 0 → ctx.stack_types = t :: rest → t ≠ .UInt →
      compileNodeF (f + 1) .bang ctx =
        .err "Bang operator only supported for numbers"
          { ctx with stack_types := rest, stack_depth := ctx.stack_depth - 1 } ∧
      ({ ctx with stack_types := rest, stack_depth := ctx.stack_depth - 1 } : Ctx) ≠ ctx) ∧
    (∀ (f : Nat) (op : String) (l r : Node) (ctx : Ctx) (cl : List String) (ctx1 : Ctx)
        (cr : List String) (ctx2 : Ctx) (rt lt : BuiltinTypes) (rest : List BuiltinTypes),
      compileNodeF f l ctx = .ok cl ctx1 → compileNodeF f r ctx1 = .ok cr ctx2 →
      ctx2.stack_types = rt :: lt :: rest → ¬ (rt = .UInt ∧ lt = .UInt) →
      compileNodeF (f + 1) (.binaryOp op l r) ctx =
        .err "Binary operations only supported on numbers" { ctx2 with stack_types := rest } ∧
      ({ ctx2 with stack_types := rest } : Ctx) ≠ ctx2) := by
  constructor
  · intro f ctx t rest hd hts ht
    constructor
    · simp [compileNodeF, hts, hd, ht]
    · intro hEq
      have := congrArg Ctx.stack_types hEq
      simp only at this
      rw [hts] at this
      exact absurd (congrArg List.length this) (by simp)
  · intro f op l r ctx cl ctx1 cr ctx2 rt lt rest hl hr hts hmm
    constructor
    · have h' : rt ≠ .UInt ∨ lt ≠ .UInt := by tauto
      simp [compileNodeF, hl, hr, hts, h']
    · intro hEq
      have := congrArg Ctx.stack_types hEq
      simp only at this
      rw [hts] at this
      have hlen := congrArg List.length this
      simp only [List.length_cons] at hlen
      omega

/-- C10 witness: `Bang` on an `InlineString` top and `BinaryOp` on
`"a" 3 +` both leave a visibly mutated context at the raise. -/
theorem mismatch_mutates_context_witness :
    (compileNodeF 1 .bang ⟨1, [.InlineString], 0, [], [], [], [], defaultTypeMap⟩ =
      .err "Bang operator only supported for numbers"
        ⟨0, [], 0, [], [], [], [], defaultTypeMap⟩ ∧
      (⟨0, [], 0, [], [], [], [], defaultTypeMap⟩ : Ctx) ≠
        ⟨1, [.InlineString], 0, [], [], [], [], defaultTypeMap⟩) ∧
    (compileNodeF 2 (.binaryOp "+" (.string "a") (.number 3)) emptyCtx =
      .err "Binary operations only supported on numbers"
        ⟨2, [], 0, [("a", "S0")], [], [], [], defaultTypeMap⟩ ∧
      (⟨2, [], 0, [("a", "S0")], [], [], [], defaultTypeMap⟩ : Ctx) ≠
        ⟨2, [.UInt, .InlineString], 0, [("a", "S0")], [], [], [], defaultTypeMap⟩) :=
  ⟨mismatch_mutates_context.1 0 ⟨1, [.InlineString], 0, [], [], [], [], defaultTypeMap⟩
      .InlineString [] (by decide) (by decide) (by decide),
   mismatch_mutates_context.2 1 "+" (.string "a") (.number 3) emptyCtx
      ["    lea rax, [S0]", "    push rax"]
      ⟨1, [.InlineString], 0, [("a", "S0")], [], [], [], defaultTypeMap⟩
      ["    push 3"] ⟨2, [.UInt, .InlineString], 0, [("a", "S0")], [], [], [], defaultTypeMap⟩
      .UInt .InlineString [] (by decide) (by decide) (by decide) (by decide)⟩
